import Mathlib

/-!
Verification of the treatment_nccr extraction pipeline.

Shallow embedding of the core components described in the specification:
drug normalization (src/drug_normalizer.py), regimen mapping
(src/drug_normalizer.py), metrics (src/metrics.py), checkpoint
serialization and the batch/retry logic (src/data_utils.py, src/main.py),
and the checkpoint store file behaviour (src/data_utils.py).

Modelling conventions:
- Python strings are Lean String values; the Python methods str.strip,
  str.lower and str.replace are modelled explicitly on the character list
  (pyStrip, pyLower, pyReplace below) so that they are kernel-evaluable.
- External collaborators (the fuzzywuzzy similarity scorers, the pandas
  CSV reader, the LLM generation function, prompt construction) are
  passed as explicit function parameters, mirroring the spec, which
  treats them as opaque collaborators.
- Python dicts are association lists in insertion order; dict lookup is
  List.lookup (dict keys are unique, so first-match lookup agrees).
- Exceptions are modelled with Except / Option; real time (sleep,
  timestamps as wall-clock values) is not modelled, timestamps are Nat.
-/

namespace Py

/-- Characters removed by Python str.strip with no arguments
(the common whitespace characters occurring in this code base). -/
def isSpaceChar (c : Char) : Bool :=
  c = ' ' || c = '\t' || c = '\n' || c = '\r'

/-- Model of Python str.strip: drop leading and trailing whitespace. -/
def pyStrip (s : String) : String :=
  String.mk (((s.data.dropWhile isSpaceChar).reverse.dropWhile isSpaceChar).reverse)

/-- Model of Python str.lower (ASCII case folding, as used by the
lowercase drug and regimen names in this code base). -/
def pyLower (s : String) : String :=
  String.mk (s.data.map Char.toLower)

/-- One pass of Python str.replace on character lists.  The fuel is an
upper bound on the number of steps; callers pass the input length, which
suffices because every step consumes at least one character (the
patterns used in the source are non-empty). -/
def replaceAux (pat rep : List Char) (fuel : Nat) (l : List Char) : List Char :=
  match fuel, l with
  | 0, rest => rest
  | Nat.succ f, [] =>
    match f with
    | _ => []
  | Nat.succ f, c :: cs =>
    if pat.isPrefixOf (c :: cs) then
      rep ++ replaceAux pat rep f (List.drop pat.length (c :: cs))
    else
      c :: replaceAux pat rep f cs

/-- Model of Python str.replace(pat, rep): replace every non-overlapping
occurrence of pat, scanning left to right. -/
def pyReplace (s pat rep : String) : String :=
  String.mk (replaceAux pat.data rep.data s.data.length s.data)

end Py

namespace DrugNormalizer

open Py

/-- A similarity scorer, such as fuzzywuzzy fuzz.scorer: an external
collaborator returning an integer score in 0..100.  The spec calls this
the Similarity Scorer and treats it as a leaf dependency; the claims
proved here do not depend on its values, so it is a parameter. -/
abbrev ScoreFn := String → String → Nat

/-- The synonym table of DrugNormalizer: Python dict from lowercase
synonym to canonical generic name, modelled as an association list in
insertion order. -/
abbrev SynMap := List (String × String)

/-- Model of DrugNormalizer._find_best_match (src/drug_normalizer.py
lines 43-77).  Python may return either a string or None (when the
fuzzy loop never finds a positive score and the threshold is 0), so the
result type is Option String: some s models returning the string s and
none models returning Python None. -/
def find_best_match (scorer : ScoreFn) (synonym_map : SynMap) (threshold : Nat)
    (drug_name : String) : Option String :=
  if pyStrip drug_name = "" then some drug_name
  else
    let key := pyLower (pyStrip drug_name)
    match synonym_map.lookup key with
    | some generic => some generic
    | none =>
      let best := synonym_map.foldl
        (fun acc p =>
          let score := scorer key p.1
          if acc.2 < score then (some p.2, score) else acc)
        ((none : Option String), 0)
      if threshold ≤ best.2 then best.1 else some key

/-- The duplicate-removal idiom of normalize_drugs
(src/drug_normalizer.py lines 100-102): keep an element only if it has
not been seen before, preserving first-occurrence order.  The seen
argument models the Python seen set. -/
def dedupFirst {α : Type} [DecidableEq α] : List α → List α → List α
  | [], _ => []
  | x :: xs, seen =>
    if x ∈ seen then dedupFirst xs seen else x :: dedupFirst xs (x :: seen)

/-- Model of DrugNormalizer.normalize_drugs (src/drug_normalizer.py
lines 79-102): map find_best_match over the entries (every entry is a
string in this embedding, so the non-string pass-through branch is
dead), then remove duplicates of the normalized output while preserving
order.  Entries are Option String because find_best_match can return
Python None. -/
def normalize_drugs (scorer : ScoreFn) (synonym_map : SynMap) (threshold : Nat)
    (drugs : List String) : List (Option String) :=
  dedupFirst (drugs.map (find_best_match scorer synonym_map threshold)) []

end DrugNormalizer

namespace RegimenMapper

open Py

/-- The regimen table of RegimenDrugMapper: Python dict from normalized
regimen key to its constituent drug list, as an association list in
insertion order. -/
abbrev RegMap := List (String × List String)

/-- Model of RegimenDrugMapper._normalize_regimen_name
(src/drug_normalizer.py lines 144-154): lowercase, strip, then remove
the literal substrings regimen, therapy, protocol, stripping after each
removal. -/
def normalize_regimen_name (regimen : String) : String :=
  let r1 := pyLower (pyStrip regimen)
  let r2 := pyStrip (pyReplace r1 "regimen" "")
  let r3 := pyStrip (pyReplace r2 "therapy" "")
  pyStrip (pyReplace r3 "protocol" "")

/-- Model of RegimenDrugMapper._fuzzy_match_regimen
(src/drug_normalizer.py lines 156-197).  The three scorers (fuzz.scorer,
fuzz.partial_ratio, fuzz.token_sort_ratio) are external collaborators
passed as parameters.  Returns the matched table key, or none. -/
def fuzzy_match_regimen (wholeSim partSim tokenSim : DrugNormalizer.ScoreFn)
    (regimen_map : RegMap) (threshold : Nat) (regimen : String) : Option String :=
  if regimen = "" then none
  else
    let nr := normalize_regimen_name regimen
    if (regimen_map.lookup nr).isSome then some nr
    else
      let best := regimen_map.foldl
        (fun acc kd =>
          let score := max (max (wholeSim nr kd.1) (partSim nr kd.1))
            (tokenSim nr kd.1)
          if acc.2 < score ∧ threshold ≤ score then (some kd.1, score) else acc)
        ((none : Option String), 0)
      best.1

/-- Model of RegimenDrugMapper.get_drugs_from_regimen
(src/drug_normalizer.py lines 199-219).  When a match is found it is a
key of the table, so the Python dict indexing regimen_map[matched] is
modelled with a default of []. -/
def get_drugs_from_regimen (wholeSim partSim tokenSim : DrugNormalizer.ScoreFn)
    (regimen_map : RegMap) (threshold : Nat) (regimen : String) : List String :=
  if regimen = "" then []
  else
    match fuzzy_match_regimen wholeSim partSim tokenSim regimen_map threshold regimen with
    | some matched => (regimen_map.lookup matched).getD []
    | none => []

end RegimenMapper

namespace Metrics

open Py

/-- Model of metrics.normalize_drug_list (src/metrics.py lines 10-14):
keep truthy (non-empty) entries, strip and lowercase each.  The early
return for an empty input produces the same value. -/
def normalize_drug_list (drugs : List String) : List String :=
  (drugs.filter (fun d => d ≠ "")).map (fun d => pyLower (pyStrip d))

/-- The output row of compute_metrics (src/metrics.py lines 61-67). -/
structure MetricsRow where
  precision : ℚ
  recallScore : ℚ
  f1 : ℚ
  missing_drugs : List String
  hallucinated_drugs : List String
  deriving Repr, DecidableEq

/-- The guarded scorer used for both precision and recall in
compute_metrics: the Python conditional expression
tp / (tp + other) if (tp + other) > 0 else 0, over exact rationals. -/
def safeFrac (tp other : Nat) : ℚ :=
  if 0 < tp + other then (tp : ℚ) / ((tp : ℚ) + (other : ℚ)) else 0

/-- Model of metrics.compute_metrics (src/metrics.py lines 16-67) on
the two drug lists it compares (the row access and the use_normalized
switch only select which two lists are passed). -/
def compute_metrics (extracted_drugs ground_truth : List String) : MetricsRow :=
  let extracted_set : Finset String := (normalize_drug_list extracted_drugs).toFinset
  let ground_truth_set : Finset String := (normalize_drug_list ground_truth).toFinset
  let tp : Nat := (extracted_set ∩ ground_truth_set).card
  let fp : Nat := (extracted_set \ ground_truth_set).card
  let fneg : Nat := (ground_truth_set \ extracted_set).card
  let precision : ℚ := safeFrac tp fp
  let recallScore : ℚ := safeFrac tp fneg
  let f1 : ℚ := if 0 < precision + recallScore then
      2 * (precision * recallScore) / (precision + recallScore) else 0
  { precision := precision
    recallScore := recallScore
    f1 := f1
    missing_drugs := ground_truth.filter
      (fun d => pyStrip (pyLower d) ∈ ground_truth_set \ extracted_set)
    hallucinated_drugs := extracted_drugs.filter
      (fun d => pyStrip (pyLower d) ∈ extracted_set \ ground_truth_set) }

end Metrics

namespace DataUtils

open Py

/-! ### Checkpoint cell serialization (src/data_utils.py)

save_checkpoint persists the DataFrame with pandas to_csv, which
converts a list-valued cell to its Python str() form (repr of the
list); load_checkpoint re-reads the file with converters that apply
safe_json_loads to the list-valued columns.  The CSV layer itself
(quoting of cells, row framing) is lossless for string cells and is
modelled as the identity on the cell text. -/

/-- The single-quote character (Python repr default string quote). -/
def squoteChar : Char := Char.ofNat 39

/-- The double-quote character (JSON string quote). -/
def dquoteChar : Char := Char.ofNat 34

/-- Model of Python repr for the strings exercised here (no backslash,
not containing both quote kinds): repr quotes with single quotes unless
the string contains a single quote and no double quote. -/
def pyReprStr (s : String) : String :=
  if s.data.contains squoteChar && !(s.data.contains dquoteChar) then
    String.mk (dquoteChar :: s.data ++ [dquoteChar])
  else
    String.mk (squoteChar :: s.data ++ [squoteChar])

/-- Model of Python str() of a list of strings, which is what pandas
to_csv writes into a CSV cell for a list-valued field. -/
def pyReprList (l : List String) : String :=
  "[" ++ String.intercalate ", " (l.map pyReprStr) ++ "]"

/-- Skip JSON whitespace. -/
def skipWs : List Char → List Char
  | [] => []
  | c :: cs => if isSpaceChar c then skipWs cs else c :: cs

/-- Parse the body of a JSON string literal after the opening quote, up
to the closing quote.  Backslash escape sequences do not occur in the
cells exercised here and make the parse fail. -/
def parseStrBody : List Char → List Char → Option (String × List Char)
  | [], _ => none
  | c :: cs, acc =>
    if c = dquoteChar then some (String.mk acc.reverse, cs)
    else if c = Char.ofNat 92 then none
    else parseStrBody cs (c :: acc)

/-- Parse a JSON string literal. -/
def parseJsonStr (cs : List Char) : Option (String × List Char) :=
  match cs with
  | c :: rest => if c = dquoteChar then parseStrBody rest [] else none
  | [] => none

/-- Parse the comma-separated elements of a non-empty JSON array of
strings, positioned at the first element, consuming the closing
bracket.  Fuel bounds the number of elements. -/
def parseElems (fuel : Nat) (cs : List Char) : Option (List String × List Char) :=
  match fuel with
  | 0 => none
  | Nat.succ f =>
    match parseJsonStr (skipWs cs) with
    | none => none
    | some (s, rest) =>
      match skipWs rest with
      | c :: r2 =>
        if c = ',' then
          match parseElems f r2 with
          | some (l, r3) => some (s :: l, r3)
          | none => none
        else if c = ']' then some ([s], r2)
        else none
      | [] => none

/-- Model of json.loads restricted to JSON arrays of plain strings,
which is the sublanguage that can appear in the list-valued checkpoint
cells; any other input fails (as json.loads fails with
JSONDecodeError on the Python repr of a non-empty list, whose elements
are single-quoted). -/
def jsonLoadsList (x : String) : Option (List String) :=
  match skipWs x.data with
  | c :: cs =>
    if c = '[' then
      match skipWs cs with
      | c2 :: cs2 =>
        if c2 = ']' then (if skipWs cs2 = [] then some [] else none)
        else
          match parseElems (cs.length + 1) (c2 :: cs2) with
          | some (l, rest) => if skipWs rest = [] then some l else none
          | none => none
      | [] => none
    else none
  | [] => none

/-- Model of data_utils.safe_json_loads (src/data_utils.py lines 9-15)
on a string cell: blank cells and the literal texts "\x7b\x7d" and
"[]" decode to the empty list; otherwise the cell is parsed as JSON,
and a decode error yields the empty list. -/
def safe_json_loads (x : String) : List String :=
  if pyStrip x = "" ∨ pyStrip x = "\x7b\x7d" ∨ pyStrip x = "[]" then []
  else
    match jsonLoadsList x with
    | some l => l
    | none => []

/-- A checkpoint record restricted to the key and the two list-valued
columns that load_checkpoint decodes with safe_json_loads
(src/data_utils.py lines 89-96); the remaining columns are plain
string cells, which the CSV layer round-trips unchanged. -/
structure CkRecord where
  unique_key : String
  extracted_drugs : List String
  unique_drugs : List String
  deriving Repr, DecidableEq

/-- The cell row written for a record by save_checkpoint via to_csv:
the key as itself, each list-valued field as its Python str() form. -/
def saveRecordCells (r : CkRecord) : String × String × String :=
  (r.unique_key, pyReprList r.extracted_drugs, pyReprList r.unique_drugs)

/-- The record recovered by load_checkpoint from a cell row: the key as
itself, each list-valued field through the safe_json_loads converter. -/
def loadRecordCells (c : String × String × String) : CkRecord :=
  { unique_key := c.1
    extracted_drugs := safe_json_loads c.2.1
    unique_drugs := safe_json_loads c.2.2 }

/-- save_checkpoint followed by load_checkpoint, at the level of the
per-record cells: what a checkpoint collection becomes after one
save/load cycle. -/
def checkpointRoundTrip (records : List CkRecord) : List CkRecord :=
  (records.map saveRecordCells).map loadRecordCells

end DataUtils

namespace Pipeline

open Py

/-! ### Batch processing and retry (src/data_utils.py process_batch,
src/main.py process_with_retry and the batch loop of run_pipeline) -/

/-- Processing settings from src/config.py. -/
def MAX_RETRIES : Nat := 3

/-- Retry delay in seconds from src/config.py; the time.sleep call it
feeds is a real-time effect with no bearing on the computed values. -/
def RETRY_DELAY : Nat := 5

/-- A parsed generation result: the JSON object with the keys drugs and
regimens required by the schema (data.get with default []). -/
structure JsonObj where
  drugs : List String
  regimens : List String
  deriving Repr, DecidableEq

/-- One response of the generation collaborator for one prompt:
ok models a response that is (or parses to) a structured object, and
error e models a string response on which json.loads raises with
message e (caught by the per-record handler of process_batch). -/
abbrev Response := Except String JsonObj

/-- The external generation collaborator, indexed by how many times it
has been invoked so far (so that behaviour across retry attempts is
expressible): ok is a normal return of one response per prompt, error e
models the call raising with message e. -/
abbrev GenFn := Nat → List String → Except String (List Response)

/-- An input row of a batch as used by process_batch and the merge:
the derived unique key, the source text, and the ground-truth columns
carried along by run_pipeline. -/
structure InRow where
  unique_key : String
  text_concat : String
  unique_drugs : List String
  regimens : List String
  deriving Repr, DecidableEq

/-- A result record appended by process_batch
(src/data_utils.py lines 52-59 and 62-70 / 74-82).  The
processing_timestamp column is wall-clock time and is not modelled;
error is none on the success path, where the column is absent. -/
structure ProcRecord where
  unique_key : String
  text_concat : String
  json_extraction : String
  extracted_drugs : List String
  extracted_regimens : List String
  error : Option String
  deriving Repr, DecidableEq

/-- Model of Python slicing str(e)[:200]: the first 200 characters. -/
def truncate200 (s : String) : String :=
  String.mk (s.data.take 200)

/-- Model of json.dumps for the extracted object (escape-free strings,
as exercised here). -/
def dumpJsonList (l : List String) : String :=
  "[" ++ String.intercalate ", " (l.map (fun s => "\"" ++ s ++ "\"")) ++ "]"

/-- Model of json.dumps(data) for the json_extraction column. -/
def dumpJsonObj (o : JsonObj) : String :=
  "\x7b\"drugs\": " ++ dumpJsonList o.drugs ++ ", \"regimens\": " ++
    dumpJsonList o.regimens ++ "\x7d"

/-- The degraded record appended for a row when an exception is caught
(src/data_utils.py lines 62-70 for a per-record failure and lines 74-82
for a whole-batch failure; both build the same record). -/
def degradeRow (e : String) (row : InRow) : ProcRecord :=
  { unique_key := row.unique_key
    text_concat := row.text_concat
    json_extraction := "\x7b\x7d"
    extracted_drugs := []
    extracted_regimens := []
    error := some (truncate200 e) }

/-- The successful record for a row and its parsed response
(src/data_utils.py lines 52-59). -/
def successRow (data : JsonObj) (row : InRow) : ProcRecord :=
  { unique_key := row.unique_key
    text_concat := row.text_concat
    json_extraction := dumpJsonObj data
    extracted_drugs := data.drugs
    extracted_regimens := data.regimens
    error := none }

/-- Model of data_utils.process_batch (src/data_utils.py lines 36-83).
fmt is the external prompt constructor (model_utils.format_prompt), gen
the generation collaborator, k the number of generator invocations made
so far; the second component of the result is the updated invocation
count.  The outer try/except of the source catches a raising generator
call and converts it into degraded records for every row, so every path
returns normally: the result is always Except.ok, which this embedding
makes visible by construction rather than by assumption. -/
def process_batch (fmt : String → String) (gen : GenFn) (k : Nat)
    (batch : List InRow) : Except String (List ProcRecord) × Nat :=
  let prompts := batch.map (fun row => fmt row.text_concat)
  match gen k prompts with
  | .ok responses =>
    (.ok ((responses.zip batch).map
      (fun pr =>
        match pr.1 with
        | .ok data => successRow data pr.2
        | .error e => degradeRow e pr.2)), k + 1)
  | .error e => (.ok (batch.map (degradeRow e)), k + 1)

/-- Model of main.process_with_retry (src/main.py lines 21-31).  The
first argument of the recursion is the remaining attempt budget
(Python iterates attempt over range(max_retries)); k counts generator
invocations.  A none result models the Python function falling off the
loop and returning None, which happens only when the budget is 0.
The except branch re-raises on the last attempt and otherwise sleeps
RETRY_DELAY seconds (real time, not modelled) and retries. -/
def process_with_retry (fmt : String → String) (gen : GenFn) (batch : List InRow) :
    Nat → Nat → Option (Except String (List ProcRecord)) × Nat
  | 0, k => (none, k)
  | Nat.succ n, k =>
    match process_batch fmt gen k batch with
    | (.ok res, k2) => (some (.ok res), k2)
    | (.error e, k2) =>
      if n = 0 then (some (.error e), k2)
      else process_with_retry fmt gen batch n k2

/-- A generation collaborator that raises with message e on every
invocation. -/
def failGen (e : String) : GenFn := fun _ _ => .error e

/-- A transiently failing generation collaborator: the first invocation
raises, every later invocation returns a well-formed response per
prompt. -/
def onceFailGen (e : String) (data : JsonObj) : GenFn :=
  fun k prompts => if k = 0 then .error e else .ok (prompts.map (fun _ => .ok data))

/-- A merged row of run_pipeline (src/main.py lines 117-122): the raw
batch columns joined with the result columns; the result columns are
Option because a left join fills them with NaN when no result row
matches.  The metric columns later added to the merged frame
(compute_metrics, compute_regimen_metrics, normalized metrics,
combined/mapped drugs) extend each row but never change the number of
rows or the key columns, and are omitted here. -/
structure MergedRow where
  unique_key : String
  text_concat : String
  unique_drugs : List String
  regimens : List String
  json_extraction : Option String
  extracted_drugs : Option (List String)
  extracted_regimens : Option (List String)
  error : Option (Option String)
  deriving Repr, DecidableEq

/-- The merged row for a batch row and a matching result record. -/
def mergeOne (row : InRow) (rec : ProcRecord) : MergedRow :=
  { unique_key := row.unique_key
    text_concat := row.text_concat
    unique_drugs := row.unique_drugs
    regimens := row.regimens
    json_extraction := some rec.json_extraction
    extracted_drugs := some rec.extracted_drugs
    extracted_regimens := some rec.extracted_regimens
    error := some rec.error }

/-- The merged row for a batch row with no matching result record
(right columns NaN). -/
def mergeNone (row : InRow) : MergedRow :=
  { unique_key := row.unique_key
    text_concat := row.text_concat
    unique_drugs := row.unique_drugs
    regimens := row.regimens
    json_extraction := none
    extracted_drugs := none
    extracted_regimens := none
    error := none }

/-- Model of the pd.merge call of run_pipeline (src/main.py lines
117-122): left join of the batch with the result records on the pair
(unique_key, text_concat). -/
def leftMerge (batch : List InRow) (results : List ProcRecord) : List MergedRow :=
  batch.flatMap (fun row =>
    let ms := results.filter
      (fun rec => rec.unique_key == row.unique_key && rec.text_concat == row.text_concat)
    match ms with
    | [] => [mergeNone row]
    | _ => ms.map (mergeOne row))

/-- Model of one iteration of the batch loop of run_pipeline
(src/main.py lines 104-179) acting on the accumulated checkpoint
collection df: process the batch with retry, left-merge the results
onto the batch and append to df (the appended frame is what
save_checkpoint then persists).  When process_with_retry raises (or
returns None), run_pipeline saves df unchanged and re-raises. -/
def pipelineBatchStep (fmt : String → String) (gen : GenFn)
    (df : List MergedRow) (batch : List InRow) (k : Nat) : List MergedRow × Nat :=
  match process_with_retry fmt gen batch MAX_RETRIES k with
  | (some (.ok results), k2) => (df ++ leftMerge batch results, k2)
  | (some (.error _), k2) => (df, k2)
  | (none, k2) => (df, k2)

end Pipeline

namespace Store

/-! ### Checkpoint store file behaviour (src/data_utils.py
load_checkpoint and save_checkpoint)

The file system state visible to the store is the checkpoint file, the
quarantined .corrupted file and the backup directory.  Backup file
names are checkpoint_backup_<timestamp> with a fixed-width timestamp
(strftime Y m d H M S), so the lexicographic file-name order that
save_checkpoint sorts by coincides with chronological order; the model
therefore carries the timestamp as a Nat and sorts numerically.
File operations themselves (copy, rename, atomic replace) are modelled
as total state updates. -/

/-- A parsed checkpoint DataFrame: its columns and rows.  pd.DataFrame()
with no arguments is the empty frame. -/
structure Df where
  columns : List String
  rows : List (List String)
  deriving Repr, DecidableEq

/-- The empty DataFrame returned on a missing or corrupt checkpoint. -/
def emptyDf : Df := { columns := [], rows := [] }

/-- The file-system state seen by the checkpoint store. -/
structure FileSys where
  checkpoint : Option String
  corrupted : Option String
  backups : List (Nat × String)
  deriving Repr, DecidableEq

/-- The columns load_checkpoint requires (src/data_utils.py line 97). -/
def requiredColumns : List String := ["unique_key", "text_concat", "extracted_drugs"]

/-- The parse-and-validate step of load_checkpoint (src/data_utils.py
lines 89-99): read the CSV with the external pandas reader and check
the required columns, any failure collapsing to none exactly as the
surrounding try/except collapses a parse error and the raised
ValueError into the same handler. -/
def parseValidate (readCsv : String → Option Df) (content : String) : Option Df :=
  match readCsv content with
  | some df => if requiredColumns.all (fun col => df.columns.contains col) then some df else none
  | none => none

/-- Model of data_utils.load_checkpoint (src/data_utils.py lines
85-111).  now is the timestamp used for the backup file name.  On a
parse/validation failure the corrupt content is copied into the backup
directory, the checkpoint file is renamed to the .corrupted path, and
the empty frame is returned; with no checkpoint file the empty frame is
returned and nothing changes. -/
def load_checkpoint (readCsv : String → Option Df) (now : Nat) (fs : FileSys) :
    Df × FileSys :=
  match fs.checkpoint with
  | some content =>
    match parseValidate readCsv content with
    | some df => (df, fs)
    | none =>
      (emptyDf,
        { checkpoint := none
          corrupted := some content
          backups := fs.backups ++ [(now, content)] })
  | none => (emptyDf, fs)

/-- The backup cleanup of save_checkpoint (src/data_utils.py lines
124-128): sort the backup file names, and when more than 5 exist,
remove all but the last 5 of the sorted order from the directory. -/
def pruneBackups (backups : List (Nat × String)) : List (Nat × String) :=
  let sortedNames := (backups.map Prod.fst).mergeSort (fun a b => a ≤ b)
  if 5 < sortedNames.length then
    let toRemove := sortedNames.take (sortedNames.length - 5)
    backups.filter (fun b => !(toRemove.contains b.1))
  else backups

/-- Model of data_utils.save_checkpoint (src/data_utils.py lines
113-131) with the external CSV writer toCsv and the backup timestamp
now: copy an existing checkpoint to a timestamped backup, atomically
replace the checkpoint with the new content (atomic_write of lines
25-34, modelled as one replacement), then prune the backup
directory. -/
def save_checkpoint (toCsv : Df → String) (now : Nat) (df : Df) (fs : FileSys) :
    FileSys :=
  let fs1 :=
    match fs.checkpoint with
    | some c => { fs with backups := fs.backups ++ [(now, c)] }
    | none => fs
  { fs1 with checkpoint := some (toCsv df), backups := pruneBackups fs1.backups }

end Store

/-! ## Claims -/

/-- Claim C1 (checkpoint round-trip is lossless): refuted on the code.
A checkpoint containing a record with a non-empty list-valued field
does not survive save_checkpoint followed by load_checkpoint: to_csv
writes the Python repr of the list (single-quoted elements), which is
not valid JSON, so the safe_json_loads converter of load_checkpoint
swallows the decode error and returns the empty list.  The theorem
evaluates the code of both directions at the failing input: a record
with extracted_drugs being the one-element list of the string a and
unique_drugs the one-element list of the string b loads back with both
fields empty, which differs from the saved collection. -/
theorem checkpoint_roundtrip_lossy :
    DataUtils.checkpointRoundTrip
        [{ unique_key := "k1", extracted_drugs := ["a"], unique_drugs := ["b"] }] =
      [{ unique_key := "k1", extracted_drugs := [], unique_drugs := [] }] ∧
    ([{ unique_key := "k1", extracted_drugs := ["a"], unique_drugs := ["b"] }] :
        List DataUtils.CkRecord) ≠
      [{ unique_key := "k1", extracted_drugs := [], unique_drugs := [] }] := by
  constructor
  · decide
  · decide

/-- Claim C5: for every fuzzy threshold and every input string that is
verbatim a synonym-table key (table keys are stripped and lowercased by
construction, so such a string is fixed by strip and lower), normalize
returns the mapped canonical value: the exact lookup short-circuits the
fuzzy search, whatever the scorer and whatever higher-scoring entries
exist elsewhere in the table. -/
theorem exact_synonym_wins (scorer : DrugNormalizer.ScoreFn)
    (tbl : DrugNormalizer.SynMap) (t : Nat) (s v : String)
    (hne : s ≠ "") (hstrip : Py.pyStrip s = s) (hlower : Py.pyLower s = s)
    (hkey : tbl.lookup s = some v) :
    DrugNormalizer.find_best_match scorer tbl t s = some v := by
  unfold DrugNormalizer.find_best_match
  rw [hstrip, hlower, if_neg hne]
  simp only [hkey]

/-- Witness for C5: the exact synonym oncovin maps to vincristine at
threshold 100 even though the constant-zero scorer would never reach
100. -/
theorem exact_synonym_wins_witness :
    DrugNormalizer.find_best_match (fun _ _ => 0)
      [("oncovin", "vincristine")] 100 "oncovin" = some "vincristine" :=
  exact_synonym_wins (fun _ _ => 0) [("oncovin", "vincristine")] 100
    "oncovin" "vincristine" (by decide) (by decide) (by decide) (by decide)

/-- The fuzzy loop of find_best_match leaves its accumulator untouched
when every scored key yields 0, because the update guard requires a
strictly larger score and Nat scores are never negative. -/
theorem foldl_zero_scores (scorer : DrugNormalizer.ScoreFn) (key : String) :
    ∀ (tbl : DrugNormalizer.SynMap) (acc : Option String × Nat),
      (∀ p ∈ tbl, scorer key p.1 = 0) →
      tbl.foldl
        (fun acc p =>
          let score := scorer key p.1
          if acc.2 < score then (some p.2, score) else acc) acc = acc := by
  intro tbl
  induction tbl with
  | nil => intro acc _; rfl
  | cons hd tl ih =>
    intro acc hz
    have h0 : scorer key hd.1 = 0 := hz hd (List.mem_cons_self hd tl)
    rw [List.foldl_cons]
    have hstep :
        (let score := scorer key hd.1
          if acc.2 < score then (some hd.2, score) else acc) = acc := by
      simp only [h0]
      exact if_neg (Nat.not_lt_zero acc.2)
    rw [hstep]
    exact ih acc (fun p hp => hz p (List.mem_cons_of_mem hd hp))

/-- Claim C10: with threshold 0, a non-blank input that misses the
exact lookup and scores 0 against every table key (for example with an
empty synonym table) makes find_best_match return None, not the
original string, and normalize_drugs then carries that None instead of
preserving the entry. -/
theorem zero_threshold_returns_none (scorer : DrugNormalizer.ScoreFn)
    (tbl : DrugNormalizer.SynMap) (s : String)
    (hne : Py.pyStrip s ≠ "")
    (hmiss : tbl.lookup (Py.pyLower (Py.pyStrip s)) = none)
    (hz : ∀ p ∈ tbl, scorer (Py.pyLower (Py.pyStrip s)) p.1 = 0) :
    DrugNormalizer.find_best_match scorer tbl 0 s = none ∧
    DrugNormalizer.normalize_drugs scorer tbl 0 [s] = [none] := by
  have hfb : DrugNormalizer.find_best_match scorer tbl 0 s = none := by
    unfold DrugNormalizer.find_best_match
    rw [if_neg hne]
    simp only [hmiss, foldl_zero_scores scorer (Py.pyLower (Py.pyStrip s)) tbl
      ((none : Option String), 0) hz]
    rfl
  refine ⟨hfb, ?_⟩
  unfold DrugNormalizer.normalize_drugs
  rw [List.map_cons, List.map_nil, hfb]
  rfl

/-- Witness for C10: with an empty synonym table and threshold 0, the
non-blank entry abc normalizes to None and is not preserved. -/
theorem zero_threshold_returns_none_witness :
    DrugNormalizer.find_best_match (fun _ _ => 0) [] 0 "abc" = none ∧
    DrugNormalizer.normalize_drugs (fun _ _ => 0) [] 0 ["abc"] = [none] :=
  zero_threshold_returns_none (fun _ _ => 0) [] "abc" (by decide) (by decide)
    (by intro p hp; cases hp)

/-- Claim C7: with the regimen table mapping chop to its four drugs and
threshold 70, resolving the input CHOP Protocol lowercases and strips
it, removes the substring protocol, hits the exact-match
short-circuit on the key chop (whatever the three fuzzy scorers are),
and returns the four-drug list. -/
theorem chop_protocol_scenario
    (wholeSim partSim tokenSim : DrugNormalizer.ScoreFn) :
    RegimenMapper.get_drugs_from_regimen wholeSim partSim tokenSim
      [("chop", ["cyclophosphamide", "doxorubicin", "vincristine", "prednisone"])]
      70 "CHOP Protocol" =
      ["cyclophosphamide", "doxorubicin", "vincristine", "prednisone"] := by
  have hnorm : RegimenMapper.normalize_regimen_name "CHOP Protocol" = "chop" := by decide
  have hne : ¬("CHOP Protocol" = "") := by decide
  have hsome : (List.lookup "chop"
      [("chop", ["cyclophosphamide", "doxorubicin", "vincristine", "prednisone"])]).isSome =
      true := by decide
  have hmatch : RegimenMapper.fuzzy_match_regimen wholeSim partSim tokenSim
      [("chop", ["cyclophosphamide", "doxorubicin", "vincristine", "prednisone"])]
      70 "CHOP Protocol" = some "chop" := by
    unfold RegimenMapper.fuzzy_match_regimen
    rw [if_neg hne]
    simp only [hnorm, hsome, if_true]
  unfold RegimenMapper.get_drugs_from_regimen
  rw [if_neg hne]
  simp only [hmatch]
  decide

/-- The guarded scorer is never negative. -/
theorem safeFrac_nonneg (a b : Nat) : 0 ≤ Metrics.safeFrac a b := by
  unfold Metrics.safeFrac
  by_cases h : 0 < a + b
  · rw [if_pos h]; positivity
  · rw [if_neg h]

/-- The guarded scorer never exceeds 1. -/
theorem safeFrac_le_one (a b : Nat) : Metrics.safeFrac a b ≤ 1 := by
  unfold Metrics.safeFrac
  by_cases h : 0 < a + b
  · rw [if_pos h]
    have hab : (0 : ℚ) < (a : ℚ) + (b : ℚ) := by exact_mod_cast h
    rw [div_le_one hab]
    have hb : (0 : ℚ) ≤ (b : ℚ) := by positivity
    linarith
  · rw [if_neg h]; norm_num

/-- The guarded scorer equals 1 exactly when the numerator is positive
and the extra part of the denominator is 0. -/
theorem safeFrac_eq_one_iff (a b : Nat) :
    Metrics.safeFrac a b = 1 ↔ 0 < a ∧ b = 0 := by
  unfold Metrics.safeFrac
  by_cases h : 0 < a + b
  · rw [if_pos h]
    have hab : (0 : ℚ) < (a : ℚ) + (b : ℚ) := by exact_mod_cast h
    rw [div_eq_one_iff_eq (ne_of_gt hab)]
    constructor
    · intro he
      have hbq : (b : ℚ) = 0 := by linarith
      have hb : b = 0 := by exact_mod_cast hbq
      exact ⟨by omega, hb⟩
    · rintro ⟨_, hb⟩
      rw [hb]
      push_cast
      ring
  · rw [if_neg h]
    constructor
    · intro h0; exact absurd h0 (by norm_num)
    · rintro ⟨ha, hb⟩; omega

/-- The f1 combination of two values in the unit interval stays in the
unit interval. -/
theorem f1_bounds (p r : ℚ) (hp0 : 0 ≤ p) (hp1 : p ≤ 1) (hr0 : 0 ≤ r) (hr1 : r ≤ 1) :
    0 ≤ (if 0 < p + r then 2 * (p * r) / (p + r) else 0) ∧
    (if 0 < p + r then 2 * (p * r) / (p + r) else 0) ≤ 1 := by
  by_cases h : 0 < p + r
  · rw [if_pos h]
    constructor
    · positivity
    · rw [div_le_one h]
      nlinarith
  · rw [if_neg h]
    norm_num

/-- Claim C4: for every extracted list and ground-truth list, precision,
recall and f1 all lie in the unit interval; precision and recall are
both 1 exactly when the normalized extracted set equals the normalized
ground-truth set and is non-empty; and two empty sets give the defined
zeros for precision and recall. -/
theorem metrics_bounds_and_equality (extracted ground_truth : List String) :
    (0 ≤ (Metrics.compute_metrics extracted ground_truth).precision ∧
      (Metrics.compute_metrics extracted ground_truth).precision ≤ 1) ∧
    (0 ≤ (Metrics.compute_metrics extracted ground_truth).recallScore ∧
      (Metrics.compute_metrics extracted ground_truth).recallScore ≤ 1) ∧
    (0 ≤ (Metrics.compute_metrics extracted ground_truth).f1 ∧
      (Metrics.compute_metrics extracted ground_truth).f1 ≤ 1) ∧
    (((Metrics.compute_metrics extracted ground_truth).precision = 1 ∧
        (Metrics.compute_metrics extracted ground_truth).recallScore = 1) ↔
      ((Metrics.normalize_drug_list extracted).toFinset =
          (Metrics.normalize_drug_list ground_truth).toFinset ∧
        (Metrics.normalize_drug_list extracted).toFinset ≠ ∅)) ∧
    ((Metrics.normalize_drug_list extracted).toFinset = ∅ →
      (Metrics.normalize_drug_list ground_truth).toFinset = ∅ →
      (Metrics.compute_metrics extracted ground_truth).precision = 0 ∧
        (Metrics.compute_metrics extracted ground_truth).recallScore = 0) := by
  have hp : (Metrics.compute_metrics extracted ground_truth).precision =
      Metrics.safeFrac
        (((Metrics.normalize_drug_list extracted).toFinset ∩
          (Metrics.normalize_drug_list ground_truth).toFinset).card)
        (((Metrics.normalize_drug_list extracted).toFinset \
          (Metrics.normalize_drug_list ground_truth).toFinset).card) := rfl
  have hr : (Metrics.compute_metrics extracted ground_truth).recallScore =
      Metrics.safeFrac
        (((Metrics.normalize_drug_list extracted).toFinset ∩
          (Metrics.normalize_drug_list ground_truth).toFinset).card)
        (((Metrics.normalize_drug_list ground_truth).toFinset \
          (Metrics.normalize_drug_list extracted).toFinset).card) := rfl
  have hf : (Metrics.compute_metrics extracted ground_truth).f1 =
      (if 0 < (Metrics.compute_metrics extracted ground_truth).precision +
          (Metrics.compute_metrics extracted ground_truth).recallScore then
        2 * ((Metrics.compute_metrics extracted ground_truth).precision *
          (Metrics.compute_metrics extracted ground_truth).recallScore) /
          ((Metrics.compute_metrics extracted ground_truth).precision +
            (Metrics.compute_metrics extracted ground_truth).recallScore)
      else 0) := rfl
  refine ⟨?_, ?_, ?_, ?_, ?_⟩
  · rw [hp]; exact ⟨safeFrac_nonneg _ _, safeFrac_le_one _ _⟩
  · rw [hr]; exact ⟨safeFrac_nonneg _ _, safeFrac_le_one _ _⟩
  · rw [hf]
    exact f1_bounds _ _ (by rw [hp]; exact safeFrac_nonneg _ _)
      (by rw [hp]; exact safeFrac_le_one _ _)
      (by rw [hr]; exact safeFrac_nonneg _ _)
      (by rw [hr]; exact safeFrac_le_one _ _)
  · rw [hp, hr, safeFrac_eq_one_iff, safeFrac_eq_one_iff]
    constructor
    · rintro ⟨⟨htp, hfp⟩, ⟨_, hfn⟩⟩
      have hEsub : (Metrics.normalize_drug_list extracted).toFinset ⊆
          (Metrics.normalize_drug_list ground_truth).toFinset := by
        rw [← Finset.sdiff_eq_empty_iff_subset]
        exact Finset.card_eq_zero.mp hfp
      have hGsub : (Metrics.normalize_drug_list ground_truth).toFinset ⊆
          (Metrics.normalize_drug_list extracted).toFinset := by
        rw [← Finset.sdiff_eq_empty_iff_subset]
        exact Finset.card_eq_zero.mp hfn
      have hEG := Finset.Subset.antisymm hEsub hGsub
      refine ⟨hEG, ?_⟩
      have hint : ((Metrics.normalize_drug_list extracted).toFinset ∩
          (Metrics.normalize_drug_list ground_truth).toFinset).Nonempty :=
        Finset.card_pos.mp htp
      have hEne : ((Metrics.normalize_drug_list extracted).toFinset).Nonempty :=
        hint.mono Finset.inter_subset_left
      exact Finset.nonempty_iff_ne_empty.mp hEne
    · rintro ⟨hEG, hne⟩
      rw [hEG, Finset.inter_self, Finset.sdiff_self, Finset.card_empty]
      have hpos : 0 < ((Metrics.normalize_drug_list ground_truth).toFinset).card :=
        Finset.card_pos.mpr (Finset.nonempty_iff_ne_empty.mpr (hEG ▸ hne))
      exact ⟨⟨hpos, rfl⟩, ⟨hpos, rfl⟩⟩
  · intro hEe hGe
    rw [hp, hr, hEe, hGe]
    simp [Metrics.safeFrac]

/-- Witness for C4: evaluated at the pair of empty lists, the empty
sets yield precision and recall 0 through the theorem itself. -/
theorem metrics_bounds_and_equality_witness :
    (Metrics.compute_metrics [] []).precision = 0 ∧
    (Metrics.compute_metrics [] []).recallScore = 0 :=
  (metrics_bounds_and_equality [] []).2.2.2.2 rfl rfl

/-- Membership in the seen-set dedup: an element survives exactly when
it occurs in the list and was not already seen. -/
theorem mem_dedupFirst {α : Type} [DecidableEq α] :
    ∀ (l seen : List α) (x : α),
      x ∈ DrugNormalizer.dedupFirst l seen ↔ x ∈ l ∧ x ∉ seen := by
  intro l
  induction l with
  | nil => intro seen x; simp [DrugNormalizer.dedupFirst]
  | cons hd tl ih =>
    intro seen x
    unfold DrugNormalizer.dedupFirst
    by_cases h : hd ∈ seen
    · rw [if_pos h, ih]
      constructor
      · rintro ⟨hx, hs⟩
        exact ⟨List.mem_cons_of_mem _ hx, hs⟩
      · rintro ⟨hx, hs⟩
        rcases List.mem_cons.mp hx with rfl | hx2
        · exact absurd h hs
        · exact ⟨hx2, hs⟩
    · rw [if_neg h]
      constructor
      · intro hx
        rcases List.mem_cons.mp hx with rfl | hx2
        · exact ⟨List.mem_cons_self _ _, h⟩
        · have h2 := (ih _ x).mp hx2
          exact ⟨List.mem_cons_of_mem _ h2.1,
            fun hs => h2.2 (List.mem_cons_of_mem _ hs)⟩
      · rintro ⟨hx, hs⟩
        rcases List.mem_cons.mp hx with rfl | hx2
        · exact List.mem_cons_self _ _
        · by_cases hxh : x = hd
          · subst hxh; exact List.mem_cons_self _ _
          · refine List.mem_cons_of_mem _ ((ih _ x).mpr ⟨hx2, fun hm => ?_⟩)
            rcases List.mem_cons.mp hm with h1 | h2
            · exact hxh h1
            · exact hs h2

/-- The seen-set dedup never produces duplicates. -/
theorem nodup_dedupFirst {α : Type} [DecidableEq α] :
    ∀ (l seen : List α), (DrugNormalizer.dedupFirst l seen).Nodup := by
  intro l
  induction l with
  | nil => intro seen; exact List.nodup_nil
  | cons hd tl ih =>
    intro seen
    unfold DrugNormalizer.dedupFirst
    by_cases h : hd ∈ seen
    · rw [if_pos h]; exact ih seen
    · rw [if_neg h]
      refine List.Nodup.cons ?_ (ih (hd :: seen))
      intro hmem
      exact ((mem_dedupFirst tl (hd :: seen) hd).mp hmem).2 (List.mem_cons_self _ _)

/-- indexOf at a head equal to the key is 0. -/
theorem indexOfHead {α : Type} [BEq α] [LawfulBEq α] (a : α) (l : List α) :
    (a :: l).indexOf a = 0 := by
  rw [List.indexOf_cons, beq_iff_eq.mpr rfl, cond_true]

/-- indexOf skips a head different from the key. -/
theorem indexOfRest {α : Type} [BEq α] [LawfulBEq α] {a b : α} (l : List α)
    (h : b ≠ a) : (b :: l).indexOf a = l.indexOf a + 1 := by
  rw [List.indexOf_cons, beq_eq_false_iff_ne.mpr h, cond_false]

/-- The seen-set dedup preserves the relative order of first
occurrences: elements that both survive keep the order of their first
occurrences in the input. -/
theorem dedupFirst_indexOf_lt {α : Type} [DecidableEq α] [BEq α] [LawfulBEq α] :
    ∀ (l seen : List α) (a b : α),
      a ∈ DrugNormalizer.dedupFirst l seen →
      b ∈ DrugNormalizer.dedupFirst l seen →
      l.indexOf a < l.indexOf b →
      (DrugNormalizer.dedupFirst l seen).indexOf a <
        (DrugNormalizer.dedupFirst l seen).indexOf b := by
  intro l
  induction l with
  | nil => intro seen a b ha _ _; cases ha
  | cons hd tl ih =>
    intro seen a b ha hb hlt
    have hne : a ≠ b := by
      intro he; rw [he] at hlt; exact Nat.lt_irrefl _ hlt
    unfold DrugNormalizer.dedupFirst at ha hb ⊢
    by_cases h : hd ∈ seen
    · rw [if_pos h] at ha hb ⊢
      have ha2 := (mem_dedupFirst tl seen a).mp ha
      have hb2 := (mem_dedupFirst tl seen b).mp hb
      have hahd : hd ≠ a := fun he => ha2.2 (he ▸ h)
      have hbhd : hd ≠ b := fun he => hb2.2 (he ▸ h)
      rw [indexOfRest tl hahd, indexOfRest tl hbhd] at hlt
      exact ih seen a b ha hb (by omega)
    · rw [if_neg h] at ha hb ⊢
      by_cases hahd : a = hd
      · subst hahd
        rw [indexOfHead]
        rcases List.mem_cons.mp hb with rfl | hb2
        · exact absurd rfl hne
        · have hbrest := (mem_dedupFirst tl (a :: seen) b).mp hb2
          have hbne : a ≠ b := fun he => hbrest.2 (he ▸ List.mem_cons_self _ _)
          rw [indexOfRest _ hbne]
          exact Nat.succ_pos _
      · have hane : hd ≠ a := fun he => hahd he.symm
        rcases List.mem_cons.mp ha with rfl | ha2
        · exact absurd rfl hahd
        · by_cases hbhd : b = hd
          · subst hbhd
            rw [indexOfHead] at hlt
            exact absurd hlt (Nat.not_lt_zero _)
          · have hbne : hd ≠ b := fun he => hbhd he.symm
            rcases List.mem_cons.mp hb with rfl | hb2
            · exact absurd rfl hbhd
            · rw [indexOfRest tl hane, indexOfRest tl hbne] at hlt
              rw [indexOfRest _ hane, indexOfRest _ hbne]
              have := ih (hd :: seen) a b ha2 hb2 (by omega)
              omega

/-- Claim C6: normalize_drugs maps an empty input to an empty output;
its output has no duplicates; its members are exactly the values of
find_best_match over the input (so duplicates are removed on the
normalized output, not the raw input); and surviving elements keep the
relative order of their first occurrences in the normalized
sequence. -/
theorem normalize_list_nodup_order (scorer : DrugNormalizer.ScoreFn)
    (tbl : DrugNormalizer.SynMap) (t : Nat) :
    DrugNormalizer.normalize_drugs scorer tbl t [] = [] ∧
    ∀ (drugs : List String),
      (DrugNormalizer.normalize_drugs scorer tbl t drugs).Nodup ∧
      (∀ x, x ∈ DrugNormalizer.normalize_drugs scorer tbl t drugs ↔
        x ∈ drugs.map (DrugNormalizer.find_best_match scorer tbl t)) ∧
      (∀ a b, a ∈ DrugNormalizer.normalize_drugs scorer tbl t drugs →
        b ∈ DrugNormalizer.normalize_drugs scorer tbl t drugs →
        (drugs.map (DrugNormalizer.find_best_match scorer tbl t)).indexOf a <
          (drugs.map (DrugNormalizer.find_best_match scorer tbl t)).indexOf b →
        (DrugNormalizer.normalize_drugs scorer tbl t drugs).indexOf a <
          (DrugNormalizer.normalize_drugs scorer tbl t drugs).indexOf b) := by
  refine ⟨rfl, ?_⟩
  intro drugs
  refine ⟨nodup_dedupFirst _ [], ?_, ?_⟩
  · intro x
    unfold DrugNormalizer.normalize_drugs
    rw [mem_dedupFirst]
    simp only [List.not_mem_nil, not_false_iff, and_true]
  · intro a b ha hb hlt
    exact dedupFirst_indexOf_lt _ [] a b ha hb hlt

/-- Witness for C6: with an empty table and threshold 100, the inputs
B and A normalize to their lowercased selves, and the output keeps
their order and has no duplicates. -/
theorem normalize_list_nodup_order_witness :
    (DrugNormalizer.normalize_drugs (fun _ _ => 0) [] 100 ["B", "A"]).Nodup ∧
    (DrugNormalizer.normalize_drugs (fun _ _ => 0) [] 100 ["B", "A"]).indexOf (some "b") <
      (DrugNormalizer.normalize_drugs (fun _ _ => 0) [] 100 ["B", "A"]).indexOf (some "a") := by
  have h := normalize_list_nodup_order (fun _ _ => 0) [] 100
  exact ⟨(h.2 ["B", "A"]).1,
    (h.2 ["B", "A"]).2.2 (some "b") (some "a") (by decide) (by decide) (by decide)⟩

/-- process_batch on a generator invocation that raises: the exception
is caught by the outer handler of process_batch, which returns a
degraded record per row; the generator was invoked exactly once. -/
theorem process_batch_failGen (fmt : String → String) (e : String) (k : Nat)
    (batch : List Pipeline.InRow) :
    Pipeline.process_batch fmt (Pipeline.failGen e) k batch =
      (.ok (batch.map (Pipeline.degradeRow e)), k + 1) := rfl

/-- process_with_retry with a generator that raises on every
invocation: because process_batch never raises, the loop returns on its
first iteration with the degraded records and a single generator
invocation. -/
theorem process_with_retry_failGen (fmt : String → String) (e : String)
    (batch : List Pipeline.InRow) (k : Nat) :
    Pipeline.process_with_retry fmt (Pipeline.failGen e) batch Pipeline.MAX_RETRIES k =
      (some (.ok (batch.map (Pipeline.degradeRow e))), k + 1) := rfl

/-- Claim C2 counterexample: the claim says a generation failure is
retried up to MAX_RETRIES times (with a delay between attempts) and
that records degrade to empty-extraction results only when all retries
exhaust.  On the code, a generator that raises on its first invocation
and would succeed on every later one is never retried: after a single
invocation (1 < MAX_RETRIES = 3, so the retry budget is not exhausted)
the batch is already recorded as degraded, and the successful second
attempt the claimed retry would have reached never happens. -/
theorem retry_claim_counterexample :
    Pipeline.process_with_retry (fun t => t)
        (Pipeline.onceFailGen "transient" { drugs := ["d1"], regimens := [] })
        [{ unique_key := "k1", text_concat := "t1", unique_drugs := [], regimens := [] }]
        Pipeline.MAX_RETRIES 0 =
      (some (.ok [Pipeline.degradeRow "transient"
        { unique_key := "k1", text_concat := "t1", unique_drugs := [], regimens := [] }]), 1) ∧
    (1 : Nat) < Pipeline.MAX_RETRIES ∧
    (Pipeline.degradeRow "transient"
      ({ unique_key := "k1", text_concat := "t1", unique_drugs := [], regimens := [] } :
        Pipeline.InRow)).extracted_drugs = [] :=
  ⟨rfl, by decide, rfl⟩

/-- Claim C2 as amended: a generation failure is caught inside
process_batch on the first attempt and never retried (the retry loop of
process_with_retry only sees exceptions raised outside the generation
call, and the generator is invoked exactly once); every record of the
batch is still recorded, exactly once and in order, with an
empty-extraction result and the error message truncated to 200
characters, rather than being dropped. -/
theorem generation_failure_degraded_once (fmt : String → String)
    (batch : List Pipeline.InRow) (e : String) (k : Nat) :
    Pipeline.process_with_retry fmt (Pipeline.failGen e) batch Pipeline.MAX_RETRIES k =
      (some (.ok (batch.map (Pipeline.degradeRow e))), k + 1) ∧
    (batch.map (Pipeline.degradeRow e)).map (fun r => r.unique_key) =
      batch.map (fun r => r.unique_key) ∧
    ∀ (row : Pipeline.InRow),
      (Pipeline.degradeRow e row).extracted_drugs = [] ∧
      (Pipeline.degradeRow e row).extracted_regimens = [] ∧
      (Pipeline.degradeRow e row).error = some (Pipeline.truncate200 e) := by
  refine ⟨rfl, ?_, fun row => ⟨rfl, rfl, rfl⟩⟩
  rw [List.map_map]
  rfl

/-- A string of characters truncated to 200 characters is non-empty
whenever the string is. -/
theorem truncate200_ne_empty {e : String} (he : e ≠ "") :
    Pipeline.truncate200 e ≠ "" := by
  intro h
  apply he
  have hdata : e.data.take 200 = [] := congrArg String.data h
  cases e with
  | mk d =>
    cases d with
    | nil => rfl
    | cons c cs => exact absurd hdata (by simp)

/-- In a list of rows with pairwise-distinct (unique_key, text_concat)
pairs, filtering the degraded records by the key pair of a row of the
list finds exactly that row's degraded record. -/
theorem filter_degrade_eq_singleton (e : String) :
    ∀ (l : List Pipeline.InRow),
      (l.map (fun r => (r.unique_key, r.text_concat))).Nodup →
      ∀ r ∈ l,
        (l.map (Pipeline.degradeRow e)).filter
          (fun rec => rec.unique_key == r.unique_key &&
            rec.text_concat == r.text_concat) = [Pipeline.degradeRow e r] := by
  intro l
  induction l with
  | nil => intro _ r hr; cases hr
  | cons hd tl ih =>
    intro hnd r hr
    have hnd2 := List.nodup_cons.mp hnd
    rw [List.map_cons, List.filter_cons]
    by_cases hp : (hd.unique_key, hd.text_concat) = (r.unique_key, r.text_concat)
    · have hk : hd.unique_key = r.unique_key := congrArg Prod.fst hp
      have ht : hd.text_concat = r.text_concat := congrArg Prod.snd hp
      have hcond : ((Pipeline.degradeRow e hd).unique_key == r.unique_key &&
          (Pipeline.degradeRow e hd).text_concat == r.text_concat) = true := by
        simp [Pipeline.degradeRow, hk, ht]
      rw [if_pos hcond]
      have hdr : Pipeline.degradeRow e hd = Pipeline.degradeRow e r := by
        simp [Pipeline.degradeRow, hk, ht]
      rw [hdr]
      have htl : (tl.map (Pipeline.degradeRow e)).filter
          (fun rec => rec.unique_key == r.unique_key &&
            rec.text_concat == r.text_concat) = [] := by
        rw [List.filter_eq_nil_iff]
        intro a ha
        obtain ⟨y, hy, rfl⟩ := List.mem_map.mp ha
        intro hcond2
        have hky : y.unique_key = r.unique_key := by
          have := (Bool.and_eq_true _ _).mp hcond2
          exact beq_iff_eq.mp this.1
        have hty : y.text_concat = r.text_concat := by
          have := (Bool.and_eq_true _ _).mp hcond2
          exact beq_iff_eq.mp this.2
        apply hnd2.1
        show (hd.unique_key, hd.text_concat) ∈
          List.map (fun r => (r.unique_key, r.text_concat)) tl
        rw [hp, ← hky, ← hty]
        exact List.mem_map.mpr ⟨y, hy, rfl⟩
      rw [htl]
    · have hcond : ((Pipeline.degradeRow e hd).unique_key == r.unique_key &&
          (Pipeline.degradeRow e hd).text_concat == r.text_concat) = false := by
        rcases Bool.eq_false_or_eq_true
          ((Pipeline.degradeRow e hd).unique_key == r.unique_key &&
            (Pipeline.degradeRow e hd).text_concat == r.text_concat) with htr | hf
        · exfalso
          have hpair := (Bool.and_eq_true _ _).mp htr
          exact hp (Prod.ext (beq_iff_eq.mp hpair.1) (beq_iff_eq.mp hpair.2))
        · exact hf
      rw [if_neg (by rw [hcond]; exact Bool.false_ne_true)]
      have hrtl : r ∈ tl := by
        rcases List.mem_cons.mp hr with rfl | h2
        · exact absurd rfl hp
        · exact h2
      exact ih hnd2.2 r hrtl

/-- Mapping a flat map whose pieces are all singletons is a map. -/
theorem flatMap_singleton_eq_map {α β : Type} (l : List α) (g : α → List β)
    (f : α → β) (hg : ∀ x ∈ l, g x = [f x]) :
    l.flatMap g = l.map f := by
  induction l with
  | nil => rfl
  | cons hd tl ih =>
    rw [List.flatMap_cons, List.map_cons, hg hd (List.mem_cons_self _ _)]
    rw [ih (fun x hx => hg x (List.mem_cons_of_mem _ hx))]
    rfl

/-- The left join of a batch with its own degraded records is one
merged row per batch row, in batch order. -/
theorem leftMerge_degrade (batch : List Pipeline.InRow) (e : String)
    (hnd : (batch.map (fun r => (r.unique_key, r.text_concat))).Nodup) :
    Pipeline.leftMerge batch (batch.map (Pipeline.degradeRow e)) =
      batch.map (fun row => Pipeline.mergeOne row (Pipeline.degradeRow e row)) := by
  unfold Pipeline.leftMerge
  refine flatMap_singleton_eq_map batch _
    (fun row => Pipeline.mergeOne row (Pipeline.degradeRow e row)) ?_
  intro row hrow
  rw [filter_degrade_eq_singleton e batch hnd row hrow]
  rfl

/-- Claim C3: for a batch on which the generation collaborator raises
for every prompt, the checkpoint grows by exactly the batch size, and
the appended rows are the batch rows merged with degraded records:
empty extracted drugs and regimens and a non-empty error message. -/
theorem batch_total_failure_recorded (fmt : String → String)
    (df : List Pipeline.MergedRow) (batch : List Pipeline.InRow) (e : String) (k : Nat)
    (hnd : (batch.map (fun r => (r.unique_key, r.text_concat))).Nodup)
    (he : e ≠ "") :
    (Pipeline.pipelineBatchStep fmt (Pipeline.failGen e) df batch k).1.length =
      df.length + batch.length ∧
    (Pipeline.pipelineBatchStep fmt (Pipeline.failGen e) df batch k).1.drop df.length =
      batch.map (fun row => Pipeline.mergeOne row (Pipeline.degradeRow e row)) ∧
    ∀ m ∈ (Pipeline.pipelineBatchStep fmt (Pipeline.failGen e) df batch k).1.drop df.length,
      m.extracted_drugs = some [] ∧ m.extracted_regimens = some [] ∧
      ∃ msg, m.error = some (some msg) ∧ msg ≠ "" := by
  have hstep : Pipeline.pipelineBatchStep fmt (Pipeline.failGen e) df batch k =
      (df ++ Pipeline.leftMerge batch (batch.map (Pipeline.degradeRow e)), k + 1) := rfl
  rw [hstep, leftMerge_degrade batch e hnd]
  refine ⟨?_, ?_, ?_⟩
  · rw [List.length_append, List.length_map]
  · exact List.drop_left _ _
  · rw [List.drop_left]
    intro m hm
    obtain ⟨row, _, rfl⟩ := List.mem_map.mp hm
    exact ⟨rfl, rfl, Pipeline.truncate200 e, rfl, truncate200_ne_empty he⟩

/-- Witness for C3: a one-row batch processed with an always-raising
generator grows the empty checkpoint to length one, with the degraded
merged row. -/
theorem batch_total_failure_recorded_witness :
    (Pipeline.pipelineBatchStep (fun t => t) (Pipeline.failGen "boom") []
        [{ unique_key := "k1", text_concat := "t1", unique_drugs := [], regimens := [] }]
        0).1.length = 0 + 1 ∧
    (Pipeline.pipelineBatchStep (fun t => t) (Pipeline.failGen "boom") []
        [{ unique_key := "k1", text_concat := "t1", unique_drugs := [], regimens := [] }]
        0).1.drop 0 =
      ([{ unique_key := "k1", text_concat := "t1", unique_drugs := [], regimens := [] }] :
        List Pipeline.InRow).map
        (fun row => Pipeline.mergeOne row (Pipeline.degradeRow "boom" row)) ∧
    ∀ m ∈ (Pipeline.pipelineBatchStep (fun t => t) (Pipeline.failGen "boom") []
        [{ unique_key := "k1", text_concat := "t1", unique_drugs := [], regimens := [] }]
        0).1.drop 0,
      m.extracted_drugs = some [] ∧ m.extracted_regimens = some [] ∧
      ∃ msg, m.error = some (some msg) ∧ msg ≠ "" := by
  have h := batch_total_failure_recorded (fun t => t) []
    [{ unique_key := "k1", text_concat := "t1", unique_drugs := [], regimens := [] }]
    "boom" 0 (by decide) (by decide)
  exact ⟨h.1, h.2.1, h.2.2⟩

/-- Claim C8: load_checkpoint returns the empty collection when no
checkpoint file exists, and on any parse or validation failure it
copies the corrupt content to a timestamped backup, renames the
original to the .corrupted path (removing it from the load path) and
returns the empty collection. -/
theorem load_checkpoint_quarantine (readCsv : String → Option Store.Df)
    (now : Nat) (fs : Store.FileSys) :
    (fs.checkpoint = none →
      Store.load_checkpoint readCsv now fs = (Store.emptyDf, fs)) ∧
    (∀ c, fs.checkpoint = some c → Store.parseValidate readCsv c = none →
      Store.load_checkpoint readCsv now fs =
        (Store.emptyDf,
          { checkpoint := none
            corrupted := some c
            backups := fs.backups ++ [(now, c)] })) := by
  constructor
  · intro h
    unfold Store.load_checkpoint
    rw [h]
  · intro c hc hfail
    unfold Store.load_checkpoint
    rw [hc]
    simp only [hfail]

/-- Witness for C8: a missing checkpoint loads as empty with the file
system untouched, and a checkpoint the reader rejects is backed up,
quarantined and loaded as empty. -/
theorem load_checkpoint_quarantine_witness :
    Store.load_checkpoint (fun _ => none) 7
        { checkpoint := none, corrupted := none, backups := [] } =
      (Store.emptyDf, { checkpoint := none, corrupted := none, backups := [] }) ∧
    Store.load_checkpoint (fun _ => none) 7
        { checkpoint := some "garbage", corrupted := none, backups := [] } =
      (Store.emptyDf,
        { checkpoint := none, corrupted := some "garbage", backups := [(7, "garbage")] }) :=
  ⟨(load_checkpoint_quarantine (fun _ => none) 7
      { checkpoint := none, corrupted := none, backups := [] }).1 rfl,
    (load_checkpoint_quarantine (fun _ => none) 7
      { checkpoint := some "garbage", corrupted := none, backups := [] }).2
      "garbage" rfl rfl⟩

/-- contains agrees with membership on lists of Nat names. -/
theorem containsNat_iff (m : List Nat) (a : Nat) : m.contains a = true ↔ a ∈ m := by
  simp [List.contains_iff_exists_mem_beq]

/-- Specification of the backup pruning: with pairwise-distinct backup
names, pruning keeps at most 5 backups, keeps a backup whose name
strictly dominates all others, and removes only backups whose names do
not exceed the name of any kept backup. -/
theorem pruneBackups_spec (l : List (Nat × String))
    (hnd : (l.map Prod.fst).Nodup) (x : Nat × String) (hx : x ∈ l)
    (hmax : ∀ y ∈ l, y ≠ x → y.1 < x.1) :
    (Store.pruneBackups l).length ≤ 5 ∧ x ∈ Store.pruneBackups l ∧
    ∀ b ∈ l, b ∉ Store.pruneBackups l →
      ∀ b2 ∈ Store.pruneBackups l, b.1 ≤ b2.1 := by
  set names := l.map Prod.fst with hnames
  set sorted := names.mergeSort (fun a b => a ≤ b) with hsortdef
  have hdef : Store.pruneBackups l =
      (if 5 < sorted.length then
        l.filter (fun b => !((sorted.take (sorted.length - 5)).contains b.1))
      else l) := rfl
  have hperm : sorted.Perm names := List.mergeSort_perm names _
  have hlen : sorted.length = l.length := by
    rw [hperm.length_eq, hnames, List.length_map]
  have hsortnd : sorted.Nodup := hperm.symm.nodup hnd
  have hpair : sorted.Pairwise (fun a b => a ≤ b) := by
    have h := @List.sorted_mergeSort Nat (fun a b => decide (a ≤ b))
      (by intro a b c h1 h2; simp only [decide_eq_true_eq] at *; omega)
      (by intro a b; simp only [Bool.or_eq_true, decide_eq_true_eq]; omega) names
    rw [← hsortdef] at h
    exact h.imp (fun hab => by simpa using hab)
  rw [hdef]
  by_cases hbig : 5 < sorted.length
  · rw [if_pos hbig]
    have htd := List.take_append_drop (sorted.length - 5) sorted
    have hsplit := htd.symm ▸ hsortnd
    have hdisj := (List.nodup_append.mp hsplit).2.2
    have hpairsplit := htd.symm ▸ hpair
    have hle_td := (List.pairwise_append.mp hpairsplit).2.2
    have hmemdrop : ∀ b ∈ l.filter
        (fun b => !((sorted.take (sorted.length - 5)).contains b.1)),
        b.1 ∈ sorted.drop (sorted.length - 5) := by
      intro b hb
      have hmf := List.mem_filter.mp hb
      have hbl := hmf.1
      have hnottake : b.1 ∉ sorted.take (sorted.length - 5) := by
        intro hmem
        have := (containsNat_iff _ _).mpr hmem
        rw [this] at hmf
        exact Bool.false_ne_true hmf.2
      have hbn : b.1 ∈ names := List.mem_map.mpr ⟨b, hbl, rfl⟩
      have hbs : b.1 ∈ sorted := hperm.mem_iff.mpr hbn
      rcases List.mem_append.mp (htd ▸ hbs) with h1 | h2
      · exact absurd h1 hnottake
      · exact h2
    refine ⟨?_, ?_, ?_⟩
    · have hfsub : ((l.filter
          (fun b => !((sorted.take (sorted.length - 5)).contains b.1))).map
          Prod.fst).Sublist names := List.Sublist.map Prod.fst (List.filter_sublist l)
      have hknd := hfsub.nodup hnd
      have hsub : (l.filter
          (fun b => !((sorted.take (sorted.length - 5)).contains b.1))).map
          Prod.fst ⊆ sorted.drop (sorted.length - 5) := by
        intro a ha
        obtain ⟨b, hb, rfl⟩ := List.mem_map.mp ha
        exact hmemdrop b hb
      have hlsub := (List.subperm_of_subset hknd hsub).length_le
      rw [List.length_map] at hlsub
      rw [List.length_drop] at hlsub
      omega
    · have hnottake : x.1 ∉ sorted.take (sorted.length - 5) := by
        intro hmem
        have hdropne : 0 < (sorted.drop (sorted.length - 5)).length := by
          rw [List.length_drop]; omega
        obtain ⟨y, hy⟩ := List.exists_mem_of_length_pos hdropne
        have hxy : x.1 ≤ y := hle_td _ hmem _ hy
        have hyne : y ≠ x.1 := fun he => hdisj hmem (he ▸ hy)
        have hyn : y ∈ names := hperm.mem_iff.mp (List.mem_of_mem_drop hy)
        obtain ⟨b2, hb2l, hb2⟩ := List.mem_map.mp hyn
        have hb2x : b2 ≠ x := fun he => hyne (by rw [← hb2, he])
        have := hmax b2 hb2l hb2x
        omega
      refine List.mem_filter.mpr ⟨hx, ?_⟩
      have hcf : ((sorted.take (sorted.length - 5)).contains x.1) = false := by
        rcases Bool.eq_false_or_eq_true
          ((sorted.take (sorted.length - 5)).contains x.1) with h1 | h2
        · exact absurd ((containsNat_iff _ _).mp h1) hnottake
        · exact h2
      rw [hcf]
      rfl
    · intro b hbl hbr b2 hb2
      have hpb : (!((sorted.take (sorted.length - 5)).contains b.1)) = false := by
        rcases Bool.eq_false_or_eq_true
          (!((sorted.take (sorted.length - 5)).contains b.1)) with h1 | h2
        · exact absurd (List.mem_filter.mpr ⟨hbl, h1⟩) hbr
        · exact h2
      have hbtake : b.1 ∈ sorted.take (sorted.length - 5) := by
        apply (containsNat_iff _ _).mp
        rcases Bool.eq_false_or_eq_true
          ((sorted.take (sorted.length - 5)).contains b.1) with h1 | h2
        · exact h1
        · rw [h2] at hpb
          exact absurd hpb (by decide)
      exact hle_td _ hbtake _ (hmemdrop b2 hb2)
  · rw [if_neg hbig]
    refine ⟨by omega, hx, ?_⟩
    intro b hbl hbr
    exact absurd hbl hbr

/-- Claim C9: when a checkpoint file exists at save time, save_checkpoint
records a timestamped backup of the pre-save checkpoint content (the
backup is taken before the overwrite, so the backed-up content is the
old file, and the new content only then replaces the checkpoint), and
after the save at most 5 backups remain, every removed backup being at
least as old as every kept one.  The hypotheses state that the new
backup timestamp is fresher than all existing ones and that existing
backup names are pairwise distinct, both guaranteed by the strictly
increasing wall clock behind the fixed-width timestamp names. -/
theorem save_checkpoint_backup_invariant (toCsv : Store.Df → String)
    (now : Nat) (df : Store.Df) (fs : Store.FileSys) (c : String)
    (hc : fs.checkpoint = some c)
    (hts : ∀ b ∈ fs.backups, b.1 < now)
    (hnd : (fs.backups.map Prod.fst).Nodup) :
    (Store.save_checkpoint toCsv now df fs).checkpoint = some (toCsv df) ∧
    (now, c) ∈ (Store.save_checkpoint toCsv now df fs).backups ∧
    (Store.save_checkpoint toCsv now df fs).backups.length ≤ 5 ∧
    ∀ b ∈ fs.backups ++ [(now, c)],
      b ∉ (Store.save_checkpoint toCsv now df fs).backups →
      ∀ b2 ∈ (Store.save_checkpoint toCsv now df fs).backups, b.1 ≤ b2.1 := by
  have hsave : Store.save_checkpoint toCsv now df fs =
      { checkpoint := some (toCsv df)
        corrupted := fs.corrupted
        backups := Store.pruneBackups (fs.backups ++ [(now, c)]) } := by
    unfold Store.save_checkpoint
    rw [hc]
  have hndall : ((fs.backups ++ [(now, c)]).map Prod.fst).Nodup := by
    rw [List.map_append]
    refine List.nodup_append.mpr ⟨hnd, List.nodup_singleton _, ?_⟩
    intro a ha hb
    obtain ⟨b, hbl, rfl⟩ := List.mem_map.mp ha
    have hlt := hts b hbl
    have : b.1 = now := by
      simpa using hb
    omega
  have hxmem : (now, c) ∈ fs.backups ++ [(now, c)] :=
    List.mem_append.mpr (Or.inr (List.mem_singleton.mpr rfl))
  have hmaxall : ∀ y ∈ fs.backups ++ [(now, c)], y ≠ (now, c) → y.1 < now := by
    intro y hy hyne
    rcases List.mem_append.mp hy with h1 | h2
    · exact hts y h1
    · exact absurd (List.mem_singleton.mp h2) hyne
  have hspec := pruneBackups_spec (fs.backups ++ [(now, c)]) hndall (now, c)
    hxmem hmaxall
  rw [hsave]
  exact ⟨rfl, hspec.2.1, hspec.1, hspec.2.2⟩

/-- Witness for C9: saving over an existing checkpoint with 5 previous
backups keeps the new backup of the old content, retains at most 5
backups and prunes only the oldest. -/
theorem save_checkpoint_backup_invariant_witness :
    (Store.save_checkpoint (fun _ => "csv") 6 Store.emptyDf
        { checkpoint := some "old", corrupted := none
          backups := [(1, "b1"), (2, "b2"), (3, "b3"), (4, "b4"), (5, "b5")] }).checkpoint =
      some "csv" ∧
    (6, "old") ∈ (Store.save_checkpoint (fun _ => "csv") 6 Store.emptyDf
        { checkpoint := some "old", corrupted := none
          backups := [(1, "b1"), (2, "b2"), (3, "b3"), (4, "b4"), (5, "b5")] }).backups ∧
    (Store.save_checkpoint (fun _ => "csv") 6 Store.emptyDf
        { checkpoint := some "old", corrupted := none
          backups := [(1, "b1"), (2, "b2"), (3, "b3"), (4, "b4"), (5, "b5")] }).backups.length ≤
      5 := by
  have h := save_checkpoint_backup_invariant (fun _ => "csv") 6 Store.emptyDf
    { checkpoint := some "old", corrupted := none
      backups := [(1, "b1"), (2, "b2"), (3, "b3"), (4, "b4"), (5, "b5")] }
    "old" rfl (by decide) (by decide)
  exact ⟨h.1, h.2.1, h.2.2.1⟩
